import Mathlib

/-!
# Verification of the train-coach detection pipeline

Shallow embedding of the algorithmic core of the Train_coach_detection
repository: the coach segmenter (`src/utils/video_processor.py`), the
keyframe selector (`src/utils/frame_extractor.py`) and the component
classifier (`src/utils/component_detector.py`).  Machine floats are
modelled by exact rationals; the external OpenCV / skimage calls
(`contourArea`, `boundingRect`, `structural_similarity`, `resize`,
drawing primitives) are modelled by their documented mathematics.
-/

namespace TrainCoach

/-! ## Coach segmenter (`VideoProcessor._detect_coach_boundaries`)

The source computes, for a video with `total_frames` frames at `fps`
frames per second:

    duration = total_frames / fps
    num_coaches = min(12, max(6, int(duration / 15)))
    segment_length = total_frames // num_coaches
    boundaries = [(i*segment_length,
                   min((i+1)*segment_length, total_frames),
                   'engine' if i == 0 else 'wagon') for i in range(num_coaches)]

`int()` on a non-negative float truncates, i.e. takes the floor; with
exact arithmetic `int((total/fps)/15) = total // (15*fps)`. -/

/-- `min(12, max(6, int(duration / 15)))` from
`VideoProcessor._detect_coach_boundaries` (line 88), with the float
division `total_frames / fps / 15` modelled exactly: its floor is the
natural-number division `total / (fps * 15)`. -/
def numCoaches (total fps : ℕ) : ℕ :=
  min 12 (max 6 (total / (fps * 15)))

/-- A coach boundary entry `(start_frame, end_frame, coach_type)`;
the coach type is the Python string `'engine'` or `'wagon'`. -/
structure Boundary where
  startFrame : ℕ
  endFrame : ℕ
  coachType : String
deriving DecidableEq, Repr, Inhabited

/-- `VideoProcessor._detect_coach_boundaries` (lines 83–102): split the
frame range into `numCoaches` equal segments of length
`total // numCoaches`, the first tagged `'engine'`, the rest `'wagon'`. -/
def detectCoachBoundaries (total fps : ℕ) : List Boundary :=
  let n := numCoaches total fps
  let segmentLength := total / n
  (List.range n).map fun i =>
    { startFrame := i * segmentLength
      endFrame := min ((i + 1) * segmentLength) total
      coachType := if i = 0 then "engine" else "wagon" }

/-- Modelled from the spec: the claim's notion of "exact partition of
`[0, total_frame_count)`" — adjacent segments abut, the first starts at
0, the last ends at `total`, the first is tagged engine and all others
wagon.  Written to compare the spec's words with the code's output. -/
def exactPartition (bs : List Boundary) (total : ℕ) : Bool :=
  match bs with
  | [] => false
  | b0 :: rest =>
    b0.startFrame = 0
    ∧ ((b0 :: rest).getLastD default).endFrame = total
    ∧ (List.range (bs.length - 1)).all (fun i =>
        (bs.getD i default).endFrame = (bs.getD (i + 1) default).startFrame)
    ∧ (List.range bs.length).all (fun i =>
        (bs.getD i default).coachType = if i = 0 then "engine" else "wagon")

/-- Python-semantics model of `_detect_coach_boundaries` in which every
division is checked: `none` models a raised `ZeroDivisionError`.  The
code divides by `fps` (computing `duration`) and by `num_coaches`
(computing `segment_length`); no other failing operation occurs. -/
def detectCoachBoundariesChecked (total fps : ℕ) : Option (List Boundary) := do
  let _duration ← if fps = 0 then none else some ((total : ℚ) / fps)
  let n := numCoaches total fps
  let _segmentLength ← if n = 0 then none else some (total / n)
  some (detectCoachBoundaries total fps)

theorem numCoaches_pos (total fps : ℕ) : 0 < numCoaches total fps := by
  unfold numCoaches; omega

theorem numCoaches_le (total fps : ℕ) : numCoaches total fps ≤ 12 := by
  unfold numCoaches; omega

theorem detectCoachBoundaries_length (total fps : ℕ) :
    (detectCoachBoundaries total fps).length = numCoaches total fps := by
  simp [detectCoachBoundaries]

theorem detectCoachBoundaries_getD (total fps i : ℕ)
    (hi : i < numCoaches total fps) :
    (detectCoachBoundaries total fps).getD i default =
      { startFrame := i * (total / numCoaches total fps)
        endFrame := min ((i + 1) * (total / numCoaches total fps)) total
        coachType := if i = 0 then "engine" else "wagon" } := by
  unfold detectCoachBoundaries
  rw [List.getD_eq_getElem?_getD, List.getElem?_map, List.getElem?_range hi]
  rfl

/-- For `i + 1 ≤ numCoaches`, `(i+1) * segmentLength ≤ total`, so the
`min` in the end frame is redundant. -/
theorem succ_mul_segmentLength_le (total fps i : ℕ)
    (hi : i < numCoaches total fps) :
    (i + 1) * (total / numCoaches total fps) ≤ total := by
  calc (i + 1) * (total / numCoaches total fps)
      ≤ numCoaches total fps * (total / numCoaches total fps) :=
        Nat.mul_le_mul_right _ hi
    _ ≤ total := Nat.mul_div_le total (numCoaches total fps)

/-- The structural part of the partition invariant that the code does
satisfy: start at 0, adjacent segments abut, the last segment ends at
`lastEnd`, and exactly the first segment is tagged `'engine'`. -/
def partitionUpTo (bs : List Boundary) (lastEnd : ℕ) : Prop :=
  (bs.getD 0 default).startFrame = 0
  ∧ (∀ i, i + 1 < bs.length →
      (bs.getD i default).endFrame = (bs.getD (i + 1) default).startFrame)
  ∧ (bs.getD (bs.length - 1) default).endFrame = lastEnd
  ∧ (∀ i, i < bs.length →
      (bs.getD i default).coachType = if i = 0 then "engine" else "wagon")

/-- C1 (counterexample): at `total_frame_count = 301`, `frame_rate = 30`
the segmenter produces 6 segments of length `301 // 6 = 50`; the last
segment ends at frame 300, not 301, so the segments do not partition
`[0, total_frame_count)` as the claim states. -/
theorem claim_C1_counterexample :
    exactPartition (detectCoachBoundaries 301 30) 301 = false := by decide

/-- C1 (amended): for `total_frame_count > 0`, `frame_rate > 0` the
segments, sorted by index, start at 0, are contiguous
(`segment[i].end == segment[i+1].start`), and exactly the first is
tagged engine; but the last segment ends at
`num_coaches * (total_frame_count // num_coaches)`, which equals
`total_frame_count` only when `num_coaches` divides it — any remainder
frames are dropped, not absorbed. -/
theorem claim_C1 (total fps : ℕ) (ht : 0 < total) (hf : 0 < fps) :
    partitionUpTo (detectCoachBoundaries total fps)
      (numCoaches total fps * (total / numCoaches total fps)) := by
  have hn := numCoaches_pos total fps
  have hlen := detectCoachBoundaries_length total fps
  refine ⟨?_, ?_, ?_, ?_⟩
  · rw [detectCoachBoundaries_getD total fps 0 hn]
    simp
  · intro i hi
    rw [hlen] at hi
    rw [detectCoachBoundaries_getD total fps i (by omega),
        detectCoachBoundaries_getD total fps (i + 1) hi]
    simpa using succ_mul_segmentLength_le total fps i (by omega)
  · rw [hlen]
    rw [detectCoachBoundaries_getD total fps (numCoaches total fps - 1) (by omega)]
    have : numCoaches total fps - 1 + 1 = numCoaches total fps := by omega
    rw [this]
    simpa using Nat.mul_div_le total (numCoaches total fps)
  · intro i hi
    rw [hlen] at hi
    rw [detectCoachBoundaries_getD total fps i hi]

theorem claim_C1_witness :
    0 < 300 ∧ 0 < 30 ∧
      partitionUpTo (detectCoachBoundaries 300 30)
        (numCoaches 300 30 * (300 / numCoaches 300 30)) :=
  ⟨by decide, by decide, claim_C1 300 30 (by decide) (by decide)⟩

/-- Modelled from the spec: the claim's coach-count formula
`clamp(round(duration / 15), 6, 12)` with `round` to the nearest
integer. -/
def numCoachesClaim (total fps : ℕ) : ℤ :=
  min 12 (max 6 (round ((total : ℚ) / (fps : ℚ) / 15)))

/-- C2 (counterexample): at `total_frame_count = 158`, `frame_rate = 1`
the duration is 158 s, so `duration / 15 = 10.533…`; the claim's
`round` gives 11, but the code's `int()` truncates to 10, and the
segmenter produces 10 segments, not 11. -/
theorem claim_C2_counterexample :
    ((detectCoachBoundaries 158 1).length : ℤ) = 10 ∧
      numCoachesClaim 158 1 = 11 := by
  constructor
  · decide
  · unfold numCoachesClaim
    norm_num [round_eq]

/-- C2 (amended): for valid input the number of segments equals
`clamp(floor((total_frame_count / frame_rate) / 15), 6, 12)` — `int()`
truncates the duration ratio toward zero (floor, for non-negative
values); it does not round to the nearest integer. -/
theorem claim_C2 (total fps : ℕ) (ht : 0 < total) (hf : 0 < fps) :
    ((detectCoachBoundaries total fps).length : ℤ) =
      min 12 (max 6 ⌊(total : ℚ) / (fps : ℚ) / 15⌋) := by
  have hq : (total : ℚ) / (fps : ℚ) / 15 = (total : ℚ) / ((fps * 15 : ℕ) : ℚ) := by
    push_cast
    ring
  have hnonneg : (0 : ℚ) ≤ (total : ℚ) / ((fps * 15 : ℕ) : ℚ) :=
    div_nonneg (by positivity) (by positivity)
  have hfloor : ⌊(total : ℚ) / (fps : ℚ) / 15⌋ = (total / (fps * 15) : ℕ) := by
    rw [hq, ← Int.natCast_floor_eq_floor hnonneg, Nat.floor_div_eq_div]
  rw [detectCoachBoundaries_length, hfloor]
  unfold numCoaches
  push_cast
  omega

theorem claim_C2_witness :
    0 < 158 ∧ 0 < 1 ∧
      ((detectCoachBoundaries 158 1).length : ℤ) =
        min 12 (max 6 ⌊(158 : ℚ) / (1 : ℚ) / 15⌋) :=
  ⟨by decide, by decide, by
    have h := claim_C2 158 1 (by decide) (by decide)
    simpa using h⟩

/-- C9: for `total_frame_count > 0`, `frame_rate > 0` the checked
(Python-semantics) model of `_detect_coach_boundaries` performs no
division by zero and raises no error: it returns exactly the boundary
list.  (The two divisions in the code are by `fps` and by
`num_coaches ≥ 6`; there is no indexing.) -/
theorem claim_C9 (total fps : ℕ) (ht : 0 < total) (hf : 0 < fps) :
    detectCoachBoundariesChecked total fps =
      some (detectCoachBoundaries total fps) := by
  unfold detectCoachBoundariesChecked
  have h1 : ¬ fps = 0 := by omega
  have h2 : ¬ numCoaches total fps = 0 := by
    have := numCoaches_pos total fps
    omega
  simp [h1, h2]

theorem claim_C9_witness :
    0 < 300 ∧ 0 < 30 ∧
      detectCoachBoundariesChecked 300 30 =
        some (detectCoachBoundaries 300 30) :=
  ⟨by decide, by decide, claim_C9 300 30 (by decide) (by decide)⟩

/-! ## Images, contours and the component detector
(`src/utils/component_detector.py`)

A decoded frame is modelled as a single-channel intensity image
(`cv2.cvtColor(..., COLOR_BGR2GRAY)` is deterministic, and all
statistics the detectors compute — crop variance, SSIM — are taken on
the grayscale image).  `cv2.Canny` + `cv2.findContours` are external
image-processing calls; their output, the contour list of a frame, is
carried as data on the frame, and the detectors are verified as
functions of that contour list (exactly how the claims quantify over
contours).  `cv2.boundingRect` and `cv2.contourArea` are modelled by
their documented mathematics: the tight inclusive pixel bounding box
(width = max x − min x + 1) and the Green/shoelace polygon area. -/

/-- A single-channel image: `px r c` is the intensity at row `r`,
column `c` (values outside `rows × cols` are never read). -/
structure GrayFrame where
  rows : ℕ
  cols : ℕ
  px : ℕ → ℕ → ℕ

/-- A contour: the list of its pixel coordinates `(x, y)` as returned
by `cv2.findContours`. -/
abbrev Contour := List (ℕ × ℕ)

/-- A decoded frame together with the contours that
`cv2.findContours(cv2.Canny(gray, 50, 150), RETR_EXTERNAL, …)` yields
on it (the external edge/contour extraction, carried as data). -/
structure Frame where
  img : GrayFrame
  contours : List Contour

/-- Model of `cv2.boundingRect`: `(x, y, w, h)` with `x, y` the
minimal coordinates and `w = max x − min x + 1`,
`h = max y − min y + 1` (OpenCV's inclusive pixel box). -/
def boundingRect : Contour → ℕ × ℕ × ℕ × ℕ
  | [] => (0, 0, 0, 0)
  | p :: ps =>
    let xs := (p :: ps).map Prod.fst
    let ys := (p :: ps).map Prod.snd
    let x0 := xs.foldl min p.1
    let y0 := ys.foldl min p.2
    let x1 := xs.foldl max p.1
    let y1 := ys.foldl max p.2
    (x0, y0, x1 - x0 + 1, y1 - y0 + 1)

/-- Twice the signed area of the polygon through `pts` (cyclic
shoelace sum). -/
def shoelace (pts : List (ℤ × ℤ)) : ℤ :=
  ((pts.zip (pts.rotate 1)).map fun pq =>
    pq.1.1 * pq.2.2 - pq.2.1 * pq.1.2).sum

/-- Model of `cv2.contourArea`: the absolute polygon (Green formula)
area `|shoelace| / 2`. -/
def contourArea (c : Contour) : ℚ :=
  ((shoelace ((c : List (ℕ × ℕ)).map fun p => ((p.1 : ℤ), (p.2 : ℤ)))).natAbs : ℚ) / 2

/-- Model of the numpy slice `frame[y:y+h, x:x+w]`, flattened: numpy
clips each slice bound to the array's extent, so the crop has shape
`(min(y+h, rows) − y) × (min(x+w, cols) − x)` (empty when the start is
past the edge). -/
def crop_values (g : GrayFrame) (x y w h : ℕ) : List ℚ :=
  (List.range (min (y + h) g.rows - y)).flatMap fun i =>
    (List.range (min (x + w) g.cols - x)).map fun j =>
      ((g.px (y + i) (x + j) : ℕ) : ℚ)

/-- Model of `np.var` (population variance, `ddof = 0`):
`E[v²] − E[v]²`. -/
def np_var (l : List ℚ) : ℚ :=
  (l.map fun v => v ^ 2).sum / l.length - (l.sum / l.length) ^ 2

/-- `DoorDetector._classify_door_status` (lines 140–164): an empty
crop defaults to `'closed'`; otherwise `'open'` iff the intensity
variance exceeds 1000. -/
def classify_door_status (roi : List ℚ) : String :=
  if roi.length = 0 then "closed"
  else if np_var roi > 1000 then "open" else "closed"

/-- A door observation `{bbox, status, area}` as built by
`DoorDetector.detect_doors`. -/
structure DoorInfo where
  bbox : ℕ × ℕ × ℕ × ℕ
  status : String
  area : ℚ
deriving DecidableEq, Repr

/-- The dictionary `{'open': …, 'closed': …, 'door_boxes': […]}`
returned by `DoorDetector.detect_doors`. -/
structure DoorResult where
  open_count : ℕ
  closed_count : ℕ
  door_boxes : List DoorInfo
deriving DecidableEq, Repr

/-- The door-candidate filter of `DoorDetector.detect_doors` line 122:
`1000 < area < 10000 and w > h * 0.3 and w < h * 3`, where `area` is
`cv2.contourArea(contour)` (the polygon area, not `w*h`). -/
def door_candidate (c : Contour) : Bool :=
  let r := boundingRect c
  let w := r.2.2.1
  let h := r.2.2.2
  let area := contourArea c
  decide (1000 < area ∧ area < 10000 ∧
    (h : ℚ) * (3 / 10) < (w : ℚ) ∧ (w : ℚ) < (h : ℚ) * 3)

/-- The `door_info` record built for one accepted contour
(lines 124–130). -/
def mk_door_info (f : Frame) (c : Contour) : DoorInfo :=
  let r := boundingRect c
  { bbox := r
    status := classify_door_status (crop_values f.img r.1 r.2.1 r.2.2.1 r.2.2.2)
    area := contourArea c }

/-- The body of the `for contour in contours` loop of
`DoorDetector.detect_doors` (lines 117–136), as a fold step: a contour
passing the size/aspect filter contributes a door record and
increments exactly one of the open/closed counters. -/
def detect_doors_step (f : Frame) (doors : DoorResult) (c : Contour) : DoorResult :=
  if door_candidate c then
    let info := mk_door_info f c
    { open_count := doors.open_count + (if info.status = "open" then 1 else 0)
      closed_count := doors.closed_count + (if info.status = "open" then 0 else 1)
      door_boxes := doors.door_boxes ++ [info] }
  else doors

/-- `DoorDetector.detect_doors` (lines 97–138): fold the loop body
over the frame's contours, starting from
`{'open': 0, 'closed': 0, 'door_boxes': []}`. -/
def detect_doors (f : Frame) : DoorResult :=
  f.contours.foldl (detect_doors_step f) ⟨0, 0, []⟩

/-- `EngineDetector.detect_engines` in `component_detector.py`
(lines 169–195): contours with `area > 15000 and w > h * 0.5`. -/
def detect_engines (f : Frame) : List (ℕ × ℕ × ℕ × ℕ) :=
  f.contours.filterMap fun c =>
    let r := boundingRect c
    if 15000 < contourArea c ∧ (r.2.2.2 : ℚ) * (1 / 2) < (r.2.2.1 : ℚ) then
      some r
    else none

/-- `WagonDetector.detect_wagons` in `component_detector.py`
(lines 200–225): contours with `5000 < area < 15000 and w > h * 0.3`. -/
def detect_wagons (f : Frame) : List (ℕ × ℕ × ℕ × ℕ) :=
  f.contours.filterMap fun c =>
    let r := boundingRect c
    if 5000 < contourArea c ∧ contourArea c < 15000 ∧
        (r.2.2.2 : ℚ) * (3 / 10) < (r.2.2.1 : ℚ) then
      some r
    else none

/-! ### Annotation (`ComponentDetector._annotate_frame`)

`cv2.rectangle` and `cv2.putText` mutate the image they are given, in
place.  In the single-channel model a BGR colour is coded as a small
intensity value, a rectangle overwrites its border pixels, and a text
label overwrites its anchor pixel; what matters for the claims is
*which image value* these writes are applied to. -/

/-- Model of `numpy.ndarray.copy()`: a fresh image with the same
contents. -/
def np_copy (g : GrayFrame) : GrayFrame :=
  { rows := g.rows, cols := g.cols, px := g.px }

/-- Model of `cv2.rectangle(img, (x,y), (x+w,y+h), color, 2)`: the
border pixels of the box take the colour code. -/
def cv_rectangle (g : GrayFrame) (x y w h val : ℕ) : GrayFrame :=
  { g with px := fun i j =>
      if ((i = y ∨ i = y + h) ∧ x ≤ j ∧ j ≤ x + w) ∨
          ((j = x ∨ j = x + w) ∧ y ≤ i ∧ i ≤ y + h) then val
      else g.px i j }

/-- Model of `cv2.putText(img, text, (x, y), …)`: the anchor pixel
takes the colour code. -/
def cv_put_text (g : GrayFrame) (x y val : ℕ) : GrayFrame :=
  { g with px := fun i j => if i = y ∧ j = x then val else g.px i j }

/-- Colour codes for the single-channel model of the BGR colours used
in `_annotate_frame`: green `(0,255,0)` ↦ 1, red `(0,0,255)` ↦ 2,
blue `(255,0,0)` ↦ 3, yellow `(0,255,255)` ↦ 4. -/
def door_color (status : String) : ℕ := if status = "open" then 1 else 2

/-- `ComponentDetector._annotate_frame` (lines 65–92): draw door,
engine and wagon boxes with their labels **onto a copy** of the frame
(`annotated = frame.copy()`), returning the copy. -/
def annotate_frame (img : GrayFrame) (doors : DoorResult)
    (engines wagons : List (ℕ × ℕ × ℕ × ℕ)) : GrayFrame :=
  let annotated := np_copy img
  let annotated := doors.door_boxes.foldl
    (fun a d =>
      cv_put_text (cv_rectangle a d.bbox.1 d.bbox.2.1 d.bbox.2.2.1 d.bbox.2.2.2
          (door_color d.status))
        d.bbox.1 (d.bbox.2.1 - 10) (door_color d.status))
    annotated
  let annotated := engines.foldl
    (fun a e => cv_put_text (cv_rectangle a e.1 e.2.1 e.2.2.1 e.2.2.2 3)
        e.1 (e.2.1 - 10) 3)
    annotated
  let annotated := wagons.foldl
    (fun a wg => cv_put_text (cv_rectangle a wg.1 wg.2.1 wg.2.2.1 wg.2.2.2 4)
        wg.1 (wg.2.1 - 10) 4)
    annotated
  annotated

/-- One entry of the `'annotations'` list built by
`ComponentDetector.detect_components`. -/
structure Annotation where
  frame_index : ℕ
  annotated_frame : GrayFrame
  doors : DoorResult
  engines : List (ℕ × ℕ × ℕ × ℕ)
  wagons : List (ℕ × ℕ × ℕ × ℕ)

/-- The aggregate dictionary returned by
`ComponentDetector.detect_components`. -/
structure Components where
  doors_open : ℕ
  doors_closed : ℕ
  engines : List (ℕ × ℕ × ℕ × ℕ)
  wagons : List (ℕ × ℕ × ℕ × ℕ)
  annotations : List Annotation

/-- The body of the `for i, frame in enumerate(frames)` loop of
`detect_components` (lines 39–61), as a fold step. -/
def detect_components_step (comps : Components) (p : ℕ × Frame) : Components :=
  let doors := detect_doors p.2
  let engines := detect_engines p.2
  let wagons := detect_wagons p.2
  let annotated := annotate_frame p.2.img doors engines wagons
  { doors_open := comps.doors_open + doors.open_count
    doors_closed := comps.doors_closed + doors.closed_count
    engines := comps.engines ++ engines
    wagons := comps.wagons ++ wagons
    annotations := comps.annotations ++
      [{ frame_index := p.1, annotated_frame := annotated,
         doors := doors, engines := engines, wagons := wagons }] }

/-- `ComponentDetector.detect_components` (lines 20–63): pool door
counts and engine/wagon boxes over all frames, collecting one
annotation per frame. -/
def detect_components (frames : List Frame) : Components :=
  frames.enum.foldl detect_components_step ⟨0, 0, [], [], []⟩

/-- State-threading model of the same call: alongside the aggregate it
returns the caller's frame list *after* the call.  Each loop iteration
reads `frame` (door/engine/wagon detection and the `frame.copy()`
inside `_annotate_frame` are its only uses) and writes only the local
copy, so the slot written back for the caller is `frame` itself. -/
def detect_components_run (frames : List Frame) : Components × List Frame :=
  frames.enum.foldl
    (fun acc p => (detect_components_step acc.1 p, acc.2 ++ [p.2]))
    (⟨0, 0, [], [], []⟩, [])

/-! ### Door-detector structure lemmas -/

theorem detect_doors_foldl_boxes (f : Frame) (cs : List Contour) (acc : DoorResult) :
    (cs.foldl (detect_doors_step f) acc).door_boxes =
      acc.door_boxes ++ (cs.filter door_candidate).map (mk_door_info f) := by
  induction cs generalizing acc with
  | nil => simp
  | cons c cs ih =>
    rw [List.foldl_cons, ih]
    by_cases hc : door_candidate c
    · simp [detect_doors_step, hc]
    · simp [detect_doors_step, hc]

theorem detect_doors_foldl_counts (f : Frame) (cs : List Contour) (acc : DoorResult) :
    (cs.foldl (detect_doors_step f) acc).open_count +
        (cs.foldl (detect_doors_step f) acc).closed_count =
      acc.open_count + acc.closed_count + (cs.filter door_candidate).length := by
  induction cs generalizing acc with
  | nil => simp
  | cons c cs ih =>
    rw [List.foldl_cons, ih]
    by_cases hc : door_candidate c
    · by_cases hs : (mk_door_info f c).status = "open" <;>
        simp [detect_doors_step, hc, hs] <;> omega
    · simp [detect_doors_step, hc]

/-- Per frame, `open + closed` equals the number of door observations. -/
theorem detect_doors_balance (f : Frame) :
    (detect_doors f).open_count + (detect_doors f).closed_count =
      (detect_doors f).door_boxes.length := by
  unfold detect_doors
  rw [detect_doors_foldl_counts, detect_doors_foldl_boxes]
  simp

/-! ### Component-aggregation lemmas -/

theorem detect_components_foldl (l : List (ℕ × Frame)) (acc : Components) :
    (l.foldl detect_components_step acc).doors_open =
        acc.doors_open + (l.map fun p => (detect_doors p.2).open_count).sum
    ∧ (l.foldl detect_components_step acc).doors_closed =
        acc.doors_closed + (l.map fun p => (detect_doors p.2).closed_count).sum
    ∧ (l.foldl detect_components_step acc).engines =
        acc.engines ++ (l.map fun p => detect_engines p.2).flatten
    ∧ (l.foldl detect_components_step acc).wagons =
        acc.wagons ++ (l.map fun p => detect_wagons p.2).flatten := by
  induction l generalizing acc with
  | nil => simp
  | cons p l ih =>
    obtain ⟨h1, h2, h3, h4⟩ := ih (detect_components_step acc p)
    refine ⟨?_, ?_, ?_, ?_⟩
    · rw [List.foldl_cons, h1]; simp [detect_components_step]; omega
    · rw [List.foldl_cons, h2]; simp [detect_components_step]; omega
    · rw [List.foldl_cons, h3]; simp [detect_components_step]
    · rw [List.foldl_cons, h4]; simp [detect_components_step]

theorem sum_map_add (l : List Frame) (f g : Frame → ℕ) :
    (l.map fun x => f x + g x).sum = (l.map f).sum + (l.map g).sum := by
  induction l with
  | nil => simp
  | cons x l ih => simp [ih]; omega

/-- C3: the aggregate door counters balance against the pooled door
observations, and the pooled engine/wagon lists have exactly the summed
per-frame detection counts. -/
theorem claim_C3 (frames : List Frame) :
    (detect_components frames).doors_open + (detect_components frames).doors_closed =
        (frames.map fun f => (detect_doors f).door_boxes.length).sum
    ∧ (detect_components frames).engines.length =
        (frames.map fun f => (detect_engines f).length).sum
    ∧ (detect_components frames).wagons.length =
        (frames.map fun f => (detect_wagons f).length).sum := by
  obtain ⟨h1, h2, h3, h4⟩ :=
    detect_components_foldl frames.enum ⟨0, 0, [], [], []⟩
  have hmap : ∀ (g : Frame → ℕ),
      (frames.enum.map fun p => g p.2) = frames.map g := by
    intro g
    calc frames.enum.map (fun p => g p.2)
        = (frames.enum.map Prod.snd).map g := by rw [List.map_map]; rfl
      _ = frames.map g := by rw [List.enum_map_snd]
  have hmapl : ∀ (g : Frame → List (ℕ × ℕ × ℕ × ℕ)),
      (frames.enum.map fun p => g p.2) = frames.map g := by
    intro g
    calc frames.enum.map (fun p => g p.2)
        = (frames.enum.map Prod.snd).map g := by rw [List.map_map]; rfl
      _ = frames.map g := by rw [List.enum_map_snd]
  have e1 : List.map (fun p => (detect_doors p.2).open_count) frames.enum =
      List.map (fun f => (detect_doors f).open_count) frames :=
      hmap fun f => (detect_doors f).open_count
  have e2 : List.map (fun p => (detect_doors p.2).closed_count) frames.enum =
      List.map (fun f => (detect_doors f).closed_count) frames :=
      hmap fun f => (detect_doors f).closed_count
  have e3 : List.map (fun p => detect_engines p.2) frames.enum =
      List.map (fun f => detect_engines f) frames :=
      hmapl fun f => detect_engines f
  have e4 : List.map (fun p => detect_wagons p.2) frames.enum =
      List.map (fun f => detect_wagons f) frames :=
      hmapl fun f => detect_wagons f
  refine ⟨?_, ?_, ?_⟩
  · show (detect_components frames).doors_open +
        (detect_components frames).doors_closed = _
    unfold detect_components
    rw [h1, h2, e1, e2]
    have : (frames.map fun f => (detect_doors f).door_boxes.length).sum =
        (frames.map fun f =>
          (detect_doors f).open_count + (detect_doors f).closed_count).sum := by
      congr 1
      exact List.map_congr_left fun f _ => (detect_doors_balance f).symm
    rw [this, sum_map_add]
    simp
  · unfold detect_components
    rw [h3, e3]
    simp [List.length_flatten, List.map_map]
    rfl
  · unfold detect_components
    rw [h4, e4]
    simp [List.length_flatten, List.map_map]
    rfl

/-! ### C6: the door detector's candidate filter and classification -/

/-- Modelled from the spec: the claim's door-candidate filter, which
takes the **bounding-box** area `w * h` strictly between 1000 and
10000 (the code instead uses `cv2.contourArea`, the polygon area). -/
def door_candidate_claim (c : Contour) : Bool :=
  let r := boundingRect c
  let w := r.2.2.1
  let h := r.2.2.2
  decide (1000 < w * h ∧ w * h < 10000 ∧
    (h : ℚ) * (3 / 10) < (w : ℚ) ∧ (w : ℚ) < (h : ℚ) * 3)

/-- A right triangle with legs 60 and 199: its polygon area is
`5970 ∈ (1000, 10000)` but its bounding box is `61 × 200`, of area
`12200 ∉ (1000, 10000)`. -/
def triContour : Contour := [(0, 0), (0, 199), (60, 199)]

/-- A frame carrying only `triContour` (its image is empty, so every
crop is empty and classifies `'closed'`). -/
def triFrame : Frame :=
  { img := { rows := 0, cols := 0, px := fun _ _ => 0 }
    contours := [triContour] }

/-- `_classify_door_status` returns `'open'` exactly when the region
is non-empty and has variance over 1000. -/
theorem classify_door_status_open_iff (roi : List ℚ) :
    classify_door_status roi = "open" ↔ roi ≠ [] ∧ 1000 < np_var roi := by
  unfold classify_door_status
  by_cases h0 : roi.length = 0
  · rw [if_pos h0]
    constructor
    · intro h
      exact absurd h (by decide)
    · rintro ⟨hne, _⟩
      exact absurd (List.length_eq_zero.mp h0) hne
  · rw [if_neg h0]
    by_cases hv : np_var roi > 1000
    · rw [if_pos hv]
      exact ⟨fun _ => ⟨fun he => h0 (by simp [he]), hv⟩, fun _ => rfl⟩
    · rw [if_neg hv]
      constructor
      · intro h
        exact absurd h (by decide)
      · rintro ⟨_, hvar⟩
        exact absurd hvar hv

/-- C6 (counterexample): the detector accepts `triContour` (contour
area 5970 lies in `(1000, 10000)` and the aspect bounds hold), but the
claim's filter — bounding-box area strictly between 1000 and 10000 —
rejects it, since its bounding box `61 × 200` has area 12200. -/
theorem claim_C6_counterexample :
    (detect_doors triFrame).door_boxes.length = 1 ∧
      (triFrame.contours.filter door_candidate_claim).length = 0 := by
  have hbr : boundingRect triContour = (0, 0, 61, 200) := by decide
  have hsl : shoelace (triContour.map fun p => ((p.1 : ℤ), (p.2 : ℤ))) = -11940 := by
    decide
  have harea : contourArea triContour = 5970 := by
    rw [contourArea, hsl]
    norm_num
  have hcand : door_candidate triContour = true := by
    simp only [door_candidate, hbr, harea, decide_eq_true_eq]
    norm_num
  have hclaim : door_candidate_claim triContour = false := by decide
  constructor
  · simp [detect_doors, triFrame, detect_doors_step, hcand]
  · simp [triFrame, List.filter, hclaim]

/-- C6 (amended): the door detector returns exactly the contours whose
**contour area** (`cv2.contourArea`, the enclosed polygon area — not
the bounding-box area) lies strictly between 1000 and 10000 and whose
bounding box satisfies `w > 0.3·h` and `w < 3·h`; each accepted
contour is classified `'open'` iff its cropped bounding region is
non-empty and has intensity variance exceeding 1000, an empty crop
defaulting to `'closed'`. -/
theorem claim_C6 (f : Frame) :
    (detect_doors f).door_boxes =
        (f.contours.filter door_candidate).map (mk_door_info f)
    ∧ (∀ c : Contour,
        door_candidate c =
          decide (1000 < contourArea c ∧ contourArea c < 10000 ∧
            ((boundingRect c).2.2.2 : ℚ) * (3 / 10) < ((boundingRect c).2.2.1 : ℚ) ∧
            ((boundingRect c).2.2.1 : ℚ) < ((boundingRect c).2.2.2 : ℚ) * 3))
    ∧ (∀ c : Contour,
        ((mk_door_info f c).status = "open" ↔
          crop_values f.img (boundingRect c).1 (boundingRect c).2.1
              (boundingRect c).2.2.1 (boundingRect c).2.2.2 ≠ [] ∧
            1000 < np_var (crop_values f.img (boundingRect c).1 (boundingRect c).2.1
              (boundingRect c).2.2.1 (boundingRect c).2.2.2))) := by
  refine ⟨?_, ?_, ?_⟩
  · unfold detect_doors
    rw [detect_doors_foldl_boxes]
    simp
  · intro c
    rfl
  · intro c
    have hst : (mk_door_info f c).status =
        classify_door_status (crop_values f.img (boundingRect c).1 (boundingRect c).2.1
          (boundingRect c).2.2.1 (boundingRect c).2.2.2) := rfl
    rw [hst]
    exact classify_door_status_open_iff _

/-! ### C10: the classifier does not modify its input frames -/

/-- C10: the state-threading model of `detect_components` returns the
input frames unchanged (all drawing happens on the `frame.copy()` made
inside `_annotate_frame`), and its numeric aggregate is exactly the
pure function of the original frames. -/
theorem claim_C10 (frames : List Frame) :
    (detect_components_run frames).2 = frames ∧
      (detect_components_run frames).1 = detect_components frames := by
  have key : ∀ (l : List (ℕ × Frame)) (c : Components) (fs : List Frame),
      l.foldl (fun acc p => (detect_components_step acc.1 p, acc.2 ++ [p.2])) (c, fs) =
        (l.foldl detect_components_step c, fs ++ l.map Prod.snd) := by
    intro l
    induction l with
    | nil => intro c fs; simp
    | cons p l ih =>
      intro c fs
      rw [List.foldl_cons, List.foldl_cons, ih]
      simp
  unfold detect_components_run detect_components
  rw [key]
  constructor
  · simp [List.enum_map_snd]
  · rfl

/-! ## Structural similarity (`FrameExtractor._calculate_similarity`)

`skimage.metrics.structural_similarity(frame1, frame2, data_range=255)`
is modelled by its documented mathematics: with the default uniform
7×7 window, for every window position compute the window means
`ux, uy`, the sample (co)variances `vx, vy, vxy` (normalised by
`n/(n−1)`, `n = 49`), and the window score
`((2·ux·uy + C1)(2·vxy + C2)) / ((ux² + uy² + C1)(vx + vy + C2))` with
`C1 = (0.01·255)²`, `C2 = (0.03·255)²`; the result is the mean score
over all full windows.  skimage raises when the window exceeds the
image (either side < 7), modelled as `none`; `_calculate_similarity`
catches every such failure and scores 0.  `cv2.resize` is an external
resampling call; it is modelled nearest-neighbour — only the output
dimensions matter for the claims. -/

/-- `C1 = (0.01 * 255)² = 6.5025`. -/
def ssimC1 : ℚ := 2601 / 400

/-- `C2 = (0.03 * 255)² = 58.5225`. -/
def ssimC2 : ℚ := 23409 / 400

/-- The pixel intensity as a rational. -/
def pxQ (g : GrayFrame) (i j : ℕ) : ℚ := (g.px i j : ℚ)

/-- Sum of `v` over the 7×7 window anchored at `(r, c)`. -/
def winSum (v : ℕ → ℕ → ℚ) (r c : ℕ) : ℚ :=
  ∑ i ∈ Finset.range 7, ∑ j ∈ Finset.range 7, v (r + i) (c + j)

/-- The SSIM score of the 7×7 window anchored at `(r, c)`. -/
def ssimWin (X Y : GrayFrame) (r c : ℕ) : ℚ :=
  let Sx := winSum (pxQ X) r c
  let Sy := winSum (pxQ Y) r c
  let Sxx := winSum (fun i j => pxQ X i j ^ 2) r c
  let Syy := winSum (fun i j => pxQ Y i j ^ 2) r c
  let Sxy := winSum (fun i j => pxQ X i j * pxQ Y i j) r c
  let ux := Sx / 49
  let uy := Sy / 49
  let vx := (49 / 48) * (Sxx / 49 - ux ^ 2)
  let vy := (49 / 48) * (Syy / 49 - uy ^ 2)
  let vxy := (49 / 48) * (Sxy / 49 - ux * uy)
  ((2 * ux * uy + ssimC1) * (2 * vxy + ssimC2)) /
    ((ux ^ 2 + uy ^ 2 + ssimC1) * (vx + vy + ssimC2))

/-- Model of `skimage.metrics.structural_similarity(X, Y, data_range=255)`
on two equal-shaped single-channel images: `none` models the exception
raised when the 7×7 window does not fit; otherwise the mean window
score over all full window positions. -/
def ssim (X Y : GrayFrame) : Option ℚ :=
  if X.rows < 7 ∨ X.cols < 7 then none
  else some
    ((∑ r ∈ Finset.range (X.rows - 6), ∑ c ∈ Finset.range (X.cols - 6),
        ssimWin X Y r c) / (((X.rows - 6) * (X.cols - 6) : ℕ) : ℚ))

/-- Model of `cv2.resize(g, (cols, rows))`: nearest-neighbour index
scaling (the interpolation scheme of the external call is irrelevant
to the claims; only the output shape is). -/
def cv_resize (g : GrayFrame) (rows cols : ℕ) : GrayFrame :=
  { rows := rows
    cols := cols
    px := fun i j => g.px (i * g.rows / rows) (j * g.cols / cols) }

/-- `FrameExtractor._calculate_similarity` (lines 96–117): if the two
frames differ in shape, resize the second to the first's dimensions;
compute SSIM and clamp below at 0 (`max(0, similarity)`); any failure
inside the `try` block (modelled by `ssim = none`) is caught and
scored `0.0`. -/
def calculate_similarity (frame1 frame2 : GrayFrame) : ℚ :=
  let frame2 :=
    if frame1.rows = frame2.rows ∧ frame1.cols = frame2.cols then frame2
    else cv_resize frame2 frame1.rows frame1.cols
  match ssim frame1 frame2 with
  | none => 0
  | some s => max 0 s

/-! ### Per-window SSIM bounds -/

theorem winSum_nonneg_of (v : ℕ → ℕ → ℚ) (r c : ℕ)
    (hv : ∀ i j, 0 ≤ v i j) : 0 ≤ winSum v r c := by
  unfold winSum
  exact Finset.sum_nonneg fun i _ => Finset.sum_nonneg fun j _ => hv _ _

/-- Cauchy–Schwarz over one window: `(∑ v)² ≤ 49 · ∑ v²`. -/
theorem winSum_sq_le (v : ℕ → ℕ → ℚ) (r c : ℕ) :
    (winSum v r c) ^ 2 ≤ 49 * winSum (fun i j => v i j ^ 2) r c := by
  have h : (∑ p ∈ Finset.range 7 ×ˢ Finset.range 7, v (r + p.1) (c + p.2)) ^ 2 ≤
      (Finset.range 7 ×ˢ Finset.range 7).card *
        ∑ p ∈ Finset.range 7 ×ˢ Finset.range 7, v (r + p.1) (c + p.2) ^ 2 :=
    sq_sum_le_card_mul_sum_sq
  have hs : winSum v r c =
      ∑ p ∈ Finset.range 7 ×ˢ Finset.range 7, v (r + p.1) (c + p.2) := by
    rw [Finset.sum_product]
    rfl
  have hss : winSum (fun i j => v i j ^ 2) r c =
      ∑ p ∈ Finset.range 7 ×ˢ Finset.range 7, v (r + p.1) (c + p.2) ^ 2 := by
    rw [Finset.sum_product]
    rfl
  rw [hs, hss]
  simpa using h

theorem winSum_sub (v w : ℕ → ℕ → ℚ) (r c : ℕ) :
    winSum (fun i j => v i j - w i j) r c = winSum v r c - winSum w r c := by
  unfold winSum
  rw [← Finset.sum_sub_distrib]
  exact Finset.sum_congr rfl fun i _ => by rw [← Finset.sum_sub_distrib]

/-- The algebraic core: the window score is at most 1 whenever the
five sums satisfy the Cauchy–Schwarz facts they do satisfy. -/
theorem ssim_frac_le_one (Sx Sy Sxx Syy Sxy : ℚ)
    (hSx : 0 ≤ Sx) (hSy : 0 ≤ Sy)
    (hx : Sx ^ 2 ≤ 49 * Sxx) (hy : Sy ^ 2 ≤ 49 * Syy)
    (hd : (Sx - Sy) ^ 2 ≤ 49 * (Sxx + Syy - 2 * Sxy)) :
    ((2 * (Sx / 49) * (Sy / 49) + ssimC1) *
        (2 * ((49 / 48) * (Sxy / 49 - (Sx / 49) * (Sy / 49))) + ssimC2)) /
      (((Sx / 49) ^ 2 + (Sy / 49) ^ 2 + ssimC1) *
        ((49 / 48) * (Sxx / 49 - (Sx / 49) ^ 2) +
          (49 / 48) * (Syy / 49 - (Sy / 49) ^ 2) + ssimC2)) ≤ 1 := by
  have hc1 : (0 : ℚ) < ssimC1 := by norm_num [ssimC1]
  have hc2 : (0 : ℚ) < ssimC2 := by norm_num [ssimC2]
  set A1 := 2 * (Sx / 49) * (Sy / 49) + ssimC1 with hA1def
  set A2 := 2 * ((49 / 48) * (Sxy / 49 - (Sx / 49) * (Sy / 49))) + ssimC2 with hA2def
  set B1 := (Sx / 49) ^ 2 + (Sy / 49) ^ 2 + ssimC1 with hB1def
  set B2 := (49 / 48) * (Sxx / 49 - (Sx / 49) ^ 2) +
      (49 / 48) * (Syy / 49 - (Sy / 49) ^ 2) + ssimC2 with hB2def
  have hvx : 0 ≤ (49 / 48 : ℚ) * (Sxx / 49 - (Sx / 49) ^ 2) := by nlinarith
  have hvy : 0 ≤ (49 / 48 : ℚ) * (Syy / 49 - (Sy / 49) ^ 2) := by nlinarith
  have hB1pos : 0 < B1 := by rw [hB1def]; positivity
  have hB2pos : 0 < B2 := by rw [hB2def]; nlinarith
  have hA1nonneg : 0 ≤ A1 := by
    rw [hA1def]
    have : 0 ≤ 2 * (Sx / 49) * (Sy / 49) := by positivity
    linarith
  have hA1B1 : A1 ≤ B1 := by
    rw [hA1def, hB1def]
    nlinarith [sq_nonneg (Sx / 49 - Sy / 49)]
  have hA2B2 : A2 ≤ B2 := by
    rw [hA2def, hB2def]
    nlinarith
  rcases le_or_lt 0 A2 with hA2 | hA2
  · rw [div_le_one (mul_pos hB1pos hB2pos)]
    exact mul_le_mul hA1B1 hA2B2 hA2 hB1pos.le
  · have hnum : A1 * A2 ≤ 0 := mul_nonpos_of_nonneg_of_nonpos hA1nonneg hA2.le
    have : A1 * A2 / (B1 * B2) ≤ 0 :=
      div_nonpos_of_nonpos_of_nonneg hnum (mul_pos hB1pos hB2pos).le
    linarith

/-- `ssimWin` with its `let` bindings expanded. -/
theorem ssimWin_eq (X Y : GrayFrame) (r c : ℕ) :
    ssimWin X Y r c =
      ((2 * (winSum (pxQ X) r c / 49) * (winSum (pxQ Y) r c / 49) + ssimC1) *
          (2 * ((49 / 48) *
            (winSum (fun i j => pxQ X i j * pxQ Y i j) r c / 49 -
              (winSum (pxQ X) r c / 49) * (winSum (pxQ Y) r c / 49))) + ssimC2)) /
        (((winSum (pxQ X) r c / 49) ^ 2 + (winSum (pxQ Y) r c / 49) ^ 2 + ssimC1) *
          ((49 / 48) * (winSum (fun i j => pxQ X i j ^ 2) r c / 49 -
              (winSum (pxQ X) r c / 49) ^ 2) +
            (49 / 48) * (winSum (fun i j => pxQ Y i j ^ 2) r c / 49 -
              (winSum (pxQ Y) r c / 49) ^ 2) + ssimC2)) := rfl

/-- Every 7×7 window of two intensity images scores at most 1. -/
theorem ssimWin_le_one (X Y : GrayFrame) (r c : ℕ) :
    ssimWin X Y r c ≤ 1 := by
  rw [ssimWin_eq]
  have hSx : 0 ≤ winSum (pxQ X) r c :=
    winSum_nonneg_of _ r c fun i j => Nat.cast_nonneg _
  have hSy : 0 ≤ winSum (pxQ Y) r c :=
    winSum_nonneg_of _ r c fun i j => Nat.cast_nonneg _
  have hx := winSum_sq_le (pxQ X) r c
  have hy := winSum_sq_le (pxQ Y) r c
  have hdiff := winSum_sq_le (fun i j => pxQ X i j - pxQ Y i j) r c
  have hsub : winSum (fun i j => pxQ X i j - pxQ Y i j) r c =
      winSum (pxQ X) r c - winSum (pxQ Y) r c := winSum_sub _ _ r c
  have hexpand : winSum (fun i j => (pxQ X i j - pxQ Y i j) ^ 2) r c =
      winSum (fun i j => pxQ X i j ^ 2) r c +
        winSum (fun i j => pxQ Y i j ^ 2) r c -
        2 * winSum (fun i j => pxQ X i j * pxQ Y i j) r c := by
    unfold winSum
    rw [Finset.mul_sum, ← Finset.sum_add_distrib, ← Finset.sum_sub_distrib]
    refine Finset.sum_congr rfl fun i _ => ?_
    rw [Finset.mul_sum, ← Finset.sum_add_distrib, ← Finset.sum_sub_distrib]
    refine Finset.sum_congr rfl fun j _ => by ring
  have hd : (winSum (pxQ X) r c - winSum (pxQ Y) r c) ^ 2 ≤
      49 * (winSum (fun i j => pxQ X i j ^ 2) r c +
        winSum (fun i j => pxQ Y i j ^ 2) r c -
        2 * winSum (fun i j => pxQ X i j * pxQ Y i j) r c) := by
    rw [← hsub, ← hexpand]
    exact hdiff
  exact ssim_frac_le_one _ _ _ _ _ hSx hSy hx hy hd

/-- Every 7×7 window of an image against itself scores exactly 1. -/
theorem ssimWin_self (X : GrayFrame) (r c : ℕ) : ssimWin X X r c = 1 := by
  have hc1 : (0 : ℚ) < ssimC1 := by norm_num [ssimC1]
  have hc2 : (0 : ℚ) < ssimC2 := by norm_num [ssimC2]
  have hxy : winSum (fun i j => pxQ X i j * pxQ X i j) r c =
      winSum (fun i j => pxQ X i j ^ 2) r c := by
    unfold winSum
    refine Finset.sum_congr rfl fun i _ => Finset.sum_congr rfl fun j _ => by ring
  have hx := winSum_sq_le (pxQ X) r c
  rw [ssimWin_eq, hxy]
  set S := winSum (pxQ X) r c with hS
  set Q := winSum (fun i j => pxQ X i j ^ 2) r c with hQ
  have hnum_eq : (2 * (S / 49) * (S / 49) + ssimC1) *
      (2 * ((49 / 48) * (Q / 49 - (S / 49) * (S / 49))) + ssimC2) =
      ((S / 49) ^ 2 + (S / 49) ^ 2 + ssimC1) *
      ((49 / 48) * (Q / 49 - (S / 49) ^ 2) +
        (49 / 48) * (Q / 49 - (S / 49) ^ 2) + ssimC2) := by ring
  rw [hnum_eq]
  have hvx : 0 ≤ (49 / 48 : ℚ) * (Q / 49 - (S / 49) ^ 2) := by nlinarith
  have hB1pos : 0 < (S / 49) ^ 2 + (S / 49) ^ 2 + ssimC1 := by positivity
  have hB2pos : 0 < (49 / 48) * (Q / 49 - (S / 49) ^ 2) +
      (49 / 48) * (Q / 49 - (S / 49) ^ 2) + ssimC2 := by nlinarith
  exact div_self (by positivity)

/-! ### Whole-image SSIM bounds -/

theorem ssim_le_one (X Y : GrayFrame) (s : ℚ) (h : ssim X Y = some s) :
    s ≤ 1 := by
  unfold ssim at h
  by_cases hdim : X.rows < 7 ∨ X.cols < 7
  · rw [if_pos hdim] at h
    exact absurd h (by simp)
  · rw [if_neg hdim] at h
    push_neg at hdim
    obtain ⟨hr, hc⟩ := hdim
    injection h with h
    subst h
    have hcardpos : 0 < ((X.rows - 6) * (X.cols - 6) : ℕ) := by
      have : 0 < X.rows - 6 := by omega
      have : 0 < X.cols - 6 := by omega
      positivity
    have hcount : (0 : ℚ) < (((X.rows - 6) * (X.cols - 6) : ℕ) : ℚ) := by
      exact_mod_cast hcardpos
    rw [div_le_one hcount]
    calc (∑ r ∈ Finset.range (X.rows - 6), ∑ c ∈ Finset.range (X.cols - 6),
            ssimWin X Y r c)
        ≤ ∑ r ∈ Finset.range (X.rows - 6), ∑ c ∈ Finset.range (X.cols - 6), (1 : ℚ) :=
          Finset.sum_le_sum fun r _ =>
            Finset.sum_le_sum fun c _ => ssimWin_le_one X Y r c
      _ = (((X.rows - 6) * (X.cols - 6) : ℕ) : ℚ) := by
          simp [Finset.sum_const, Finset.card_range]

theorem ssim_self (X : GrayFrame) (hr : 7 ≤ X.rows) (hc : 7 ≤ X.cols) :
    ssim X X = some 1 := by
  unfold ssim
  rw [if_neg (by omega)]
  congr 1
  have hcardpos : 0 < ((X.rows - 6) * (X.cols - 6) : ℕ) := by
    have : 0 < X.rows - 6 := by omega
    have : 0 < X.cols - 6 := by omega
    positivity
  have hcount : (0 : ℚ) < (((X.rows - 6) * (X.cols - 6) : ℕ) : ℚ) := by
    exact_mod_cast hcardpos
  have hsum : (∑ r ∈ Finset.range (X.rows - 6), ∑ c ∈ Finset.range (X.cols - 6),
      ssimWin X X r c) = (((X.rows - 6) * (X.cols - 6) : ℕ) : ℚ) := by
    calc (∑ r ∈ Finset.range (X.rows - 6), ∑ c ∈ Finset.range (X.cols - 6),
            ssimWin X X r c)
        = ∑ r ∈ Finset.range (X.rows - 6), ∑ c ∈ Finset.range (X.cols - 6), (1 : ℚ) :=
          Finset.sum_congr rfl fun r _ =>
            Finset.sum_congr rfl fun c _ => ssimWin_self X r c
      _ = (((X.rows - 6) * (X.cols - 6) : ℕ) : ℚ) := by
          simp [Finset.sum_const, Finset.card_range]
  rw [hsum, div_self hcount.ne']

/-- `calculate_similarity` with its `let` binding expanded. -/
theorem calculate_similarity_eq (frame1 frame2 : GrayFrame) :
    calculate_similarity frame1 frame2 =
      match ssim frame1
          (if frame1.rows = frame2.rows ∧ frame1.cols = frame2.cols then frame2
           else cv_resize frame2 frame1.rows frame1.cols) with
      | none => 0
      | some s => max 0 s := rfl

/-- C8: the similarity function is total with range `[0, 1]`: a `none`
from SSIM (any internal failure, including a window that does not fit)
degrades to score 0, and a successful SSIM is clamped below at 0 and
is provably at most 1; a shape mismatch goes through the resize to
`frame1`'s dimensions before comparison (visible in
`calculate_similarity_eq`). -/
theorem claim_C8 (frame1 frame2 : GrayFrame) :
    0 ≤ calculate_similarity frame1 frame2 ∧
      calculate_similarity frame1 frame2 ≤ 1 := by
  rw [calculate_similarity_eq]
  rcases hss : ssim frame1
      (if frame1.rows = frame2.rows ∧ frame1.cols = frame2.cols then frame2
       else cv_resize frame2 frame1.rows frame1.cols) with _ | s
  · exact ⟨le_refl 0, by norm_num⟩
  · exact ⟨le_max_left 0 s, max_le (by norm_num) (ssim_le_one _ _ s hss)⟩

/-- A 1×1 frame: too small for the 7×7 SSIM window. -/
def tinyFrame : GrayFrame := { rows := 1, cols := 1, px := fun _ _ => 0 }

/-- C7 (counterexample): for a frame smaller than the 7×7 SSIM window
(here 1×1), skimage raises, the `except` path scores 0 — not 1.0 —
and `0 < 0.9 = τ`, so such a frame compared against itself *does*
trigger a new keyframe. -/
theorem claim_C7_counterexample :
    calculate_similarity tinyFrame tinyFrame = 0 ∧
      calculate_similarity tinyFrame tinyFrame < 9 / 10 := by
  have h : calculate_similarity tinyFrame tinyFrame = 0 := by
    rw [calculate_similarity_eq]
    simp [ssim, tinyFrame]
  exact ⟨h, by rw [h]; norm_num⟩

/-- C7 (amended): for every frame at least 7×7 (the SSIM window size),
comparing the frame with itself scores exactly 1, and since selection
requires a score strictly below τ ≤ 1, an identical frame never
triggers a new keyframe.  (Frames with a side < 7 instead score 0
through the failure path — see the counterexample.) -/
theorem claim_C7 (f : GrayFrame) (τ : ℚ) (hr : 7 ≤ f.rows) (hc : 7 ≤ f.cols)
    (hτ : τ ≤ 1) :
    calculate_similarity f f = 1 ∧ ¬ calculate_similarity f f < τ := by
  have h1 : calculate_similarity f f = 1 := by
    rw [calculate_similarity_eq]
    rw [if_pos ⟨rfl, rfl⟩, ssim_self f hr hc]
    simp
  refine ⟨h1, ?_⟩
  rw [h1]
  exact not_lt.mpr hτ

/-- A flat 7×7 frame. -/
def flatFrame7 : GrayFrame := { rows := 7, cols := 7, px := fun _ _ => 0 }

theorem claim_C7_witness :
    7 ≤ flatFrame7.rows ∧ 7 ≤ flatFrame7.cols ∧ (9 / 10 : ℚ) ≤ 1 ∧
      (calculate_similarity flatFrame7 flatFrame7 = 1 ∧
        ¬ calculate_similarity flatFrame7 flatFrame7 < 9 / 10) :=
  ⟨by decide, by decide, by norm_num,
    claim_C7 flatFrame7 (9 / 10) (by decide) (by decide) (by norm_num)⟩

/-! ## Keyframe selection (`FrameExtractor.extract_key_frames`)

The input video is modelled as the list of its decoded frames (already
single-channel; `cv2.cvtColor` is deterministic and the colour frame
plays no role in selection).  `cap.read()` walks the list in order;
`CAP_PROP_FRAME_COUNT` is its length. -/

/-- `sample_interval = max(1, total_frames // (target_frames * 3))`
(line 47).  (In Python `target_frames = 0` would raise
`ZeroDivisionError`; the theorems below assume `1 ≤ target`.) -/
def sample_interval (total target : ℕ) : ℕ :=
  max 1 (total / (target * 3))

/-- The `while True: cap.read()` loop of `extract_key_frames`
(lines 52–80): walk the frames with the running `frame_count`, the
moving reference and the accumulator; a frame is considered when
`frame_count % sample_interval == 0`; the first considered frame is
selected as reference; a later considered frame is selected iff its
similarity to the reference is strictly below the threshold, becoming
the new reference, and the loop breaks once
`len(frames) >= target_frames` — a check made only right after such a
selection. -/
def extract_loop (thr : ℚ) (target interval : ℕ) :
    List GrayFrame → ℕ → Option GrayFrame → List GrayFrame → List GrayFrame
  | [], _, _, acc => acc
  | f :: rest, idx, ref, acc =>
    if idx % interval = 0 then
      match ref with
      | none => extract_loop thr target interval rest (idx + 1) (some f) (acc ++ [f])
      | some r =>
        if calculate_similarity r f < thr then
          if target ≤ (acc ++ [f]).length then acc ++ [f]
          else extract_loop thr target interval rest (idx + 1) (some f) (acc ++ [f])
        else extract_loop thr target interval rest (idx + 1) ref acc
    else extract_loop thr target interval rest (idx + 1) ref acc

/-- `FrameExtractor.extract_key_frames` (lines 21–94): run the
sampling loop; if it selected nothing, fall back to re-reading the
first frame of the video (empty when the video has no readable
frame). -/
def extract_key_frames (frames : List GrayFrame) (thr : ℚ) (target : ℕ) :
    List GrayFrame :=
  let interval := sample_interval frames.length target
  let res := extract_loop thr target interval frames 0 none []
  if res.isEmpty then frames.take 1 else res

/-- Modelled from the spec: the frames the claim says are considered —
those whose index is a multiple of `sample_interval`. -/
def spec_sampled (frames : List GrayFrame) (interval : ℕ) : List GrayFrame :=
  (frames.enum.filter fun p => p.1 % interval = 0).map Prod.snd

/-- Modelled from the spec: the claim's selection process over the
sampled frames — the first is always selected and becomes the
reference; each later one is selected iff its score against the moving
reference is strictly below τ; selection stops as soon as
`target_count` keyframes have been collected. -/
def spec_loop (thr : ℚ) (target : ℕ) :
    List GrayFrame → Option GrayFrame → List GrayFrame → List GrayFrame
  | [], _, acc => acc
  | f :: rest, ref, acc =>
    if target ≤ acc.length then acc
    else
      match ref with
      | none => spec_loop thr target rest (some f) (acc ++ [f])
      | some r =>
        if calculate_similarity r f < thr then
          spec_loop thr target rest (some f) (acc ++ [f])
        else spec_loop thr target rest ref acc

/-- Modelled from the spec: the keyframe list as the claim describes
it. -/
def spec_select (frames : List GrayFrame) (thr : ℚ) (target : ℕ) :
    List GrayFrame :=
  spec_loop thr target (spec_sampled frames (sample_interval frames.length target))
    none []

/-! ### Loop equation lemmas -/

theorem extract_loop_nil (thr : ℚ) (target interval idx : ℕ)
    (ref : Option GrayFrame) (acc : List GrayFrame) :
    extract_loop thr target interval [] idx ref acc = acc := rfl

theorem extract_loop_skip (thr : ℚ) (target interval : ℕ) (f : GrayFrame)
    (rest : List GrayFrame) (idx : ℕ) (ref : Option GrayFrame)
    (acc : List GrayFrame) (hi : ¬ idx % interval = 0) :
    extract_loop thr target interval (f :: rest) idx ref acc =
      extract_loop thr target interval rest (idx + 1) ref acc := by
  simp [extract_loop, hi]

theorem extract_loop_ref (thr : ℚ) (target interval : ℕ) (f : GrayFrame)
    (rest : List GrayFrame) (idx : ℕ) (acc : List GrayFrame)
    (hi : idx % interval = 0) :
    extract_loop thr target interval (f :: rest) idx none acc =
      extract_loop thr target interval rest (idx + 1) (some f) (acc ++ [f]) := by
  simp [extract_loop, hi]

theorem extract_loop_sel (thr : ℚ) (target interval : ℕ) (f r : GrayFrame)
    (rest : List GrayFrame) (idx : ℕ) (acc : List GrayFrame)
    (hi : idx % interval = 0) (hs : calculate_similarity r f < thr) :
    extract_loop thr target interval (f :: rest) idx (some r) acc =
      if target ≤ (acc ++ [f]).length then acc ++ [f]
      else extract_loop thr target interval rest (idx + 1) (some f) (acc ++ [f]) := by
  simp [extract_loop, hi, hs]

theorem extract_loop_nosel (thr : ℚ) (target interval : ℕ) (f r : GrayFrame)
    (rest : List GrayFrame) (idx : ℕ) (acc : List GrayFrame)
    (hi : idx % interval = 0) (hs : ¬ calculate_similarity r f < thr) :
    extract_loop thr target interval (f :: rest) idx (some r) acc =
      extract_loop thr target interval rest (idx + 1) (some r) acc := by
  simp [extract_loop, hi, hs]

theorem extract_loop_ne_nil (thr : ℚ) (target interval : ℕ) :
    ∀ (fs : List GrayFrame) (idx : ℕ) (ref : Option GrayFrame)
      (acc : List GrayFrame), acc ≠ [] →
      extract_loop thr target interval fs idx ref acc ≠ [] := by
  intro fs
  induction fs with
  | nil => intro idx ref acc h; exact h
  | cons f rest ih =>
    intro idx ref acc h
    by_cases hi : idx % interval = 0
    · rcases ref with ref | r
      · rw [extract_loop_ref thr target interval f rest idx acc hi]
        exact ih _ _ _ (by simp)
      · by_cases hs : calculate_similarity r f < thr
        · rw [extract_loop_sel thr target interval f r rest idx acc hi hs]
          by_cases ht : target ≤ (acc ++ [f]).length
          · rw [if_pos ht]; simp
          · rw [if_neg ht]; exact ih _ _ _ (by simp)
        · rw [extract_loop_nosel thr target interval f r rest idx acc hi hs]
          exact ih _ _ _ h
    · rw [extract_loop_skip thr target interval f rest idx ref acc hi]
      exact ih _ _ _ h

/-- The loop's accumulator never exceeds `B` when `2 ≤ B` and
`target ≤ B`. -/
theorem extract_loop_length_le (thr : ℚ) (interval target B : ℕ)
    (hB2 : 2 ≤ B) (htB : target ≤ B) :
    ∀ (fs : List GrayFrame) (idx : ℕ) (ref : Option GrayFrame)
      (acc : List GrayFrame),
      (ref = none → acc = []) → acc.length + 1 ≤ B →
      (extract_loop thr target interval fs idx ref acc).length ≤ B := by
  intro fs
  induction fs with
  | nil => intro idx ref acc _ hlen; rw [extract_loop_nil]; omega
  | cons f rest ih =>
    intro idx ref acc href hlen
    by_cases hi : idx % interval = 0
    · rcases ref with ref | r
      · have hacc : acc = [] := href rfl
        subst hacc
        rw [extract_loop_ref thr target interval f rest idx [] hi]
        exact ih _ _ _ (by simp) (by simp; omega)
      · by_cases hs : calculate_similarity r f < thr
        · rw [extract_loop_sel thr target interval f r rest idx acc hi hs]
          by_cases ht : target ≤ (acc ++ [f]).length
          · rw [if_pos ht]
            simp only [List.length_append, List.length_cons, List.length_nil]
            omega
          · rw [if_neg ht]
            refine ih _ _ _ (by simp) ?_
            simp only [List.length_append, List.length_cons, List.length_nil] at ht ⊢
            omega
        · rw [extract_loop_nosel thr target interval f r rest idx acc hi hs]
          exact ih _ _ _ (fun h => absurd h (by simp)) hlen
    · rw [extract_loop_skip thr target interval f rest idx ref acc hi]
      exact ih _ _ _ href hlen

/-- `extract_key_frames` with its `let` bindings expanded. -/
theorem extract_key_frames_eq (frames : List GrayFrame) (thr : ℚ) (target : ℕ) :
    extract_key_frames frames thr target =
      if (extract_loop thr target (sample_interval frames.length target)
          frames 0 none []).isEmpty
      then frames.take 1
      else extract_loop thr target (sample_interval frames.length target)
        frames 0 none [] := rfl

/-- C4 (amended): for `target_count ≥ 1` and a segment with at least
one readable frame the selector returns a non-empty list; its length
is bounded by `max 2 target_count`, and by `target_count` itself
whenever `target_count ≥ 2`.  (For `target_count = 1` the first frame
is selected without a length check and a later dissimilar frame can
still be appended, so the bound `≤ target_count` fails — see the
counterexample.) -/
theorem claim_C4 (frames : List GrayFrame) (thr : ℚ) (target : ℕ)
    (htarget : 1 ≤ target) (hne : frames ≠ []) :
    extract_key_frames frames thr target ≠ [] ∧
      (extract_key_frames frames thr target).length ≤ max 2 target ∧
      (2 ≤ target → (extract_key_frames frames thr target).length ≤ target) := by
  obtain ⟨f, rest, rfl⟩ : ∃ f rest, frames = f :: rest := by
    rcases frames with _ | ⟨f, rest⟩
    · exact absurd rfl hne
    · exact ⟨f, rest, rfl⟩
  set interval := sample_interval (f :: rest).length target with hintv
  have hloop : extract_loop thr target interval (f :: rest) 0 none [] ≠ [] := by
    rw [extract_loop_ref thr target interval f rest 0 [] (Nat.zero_mod interval)]
    exact extract_loop_ne_nil thr target interval rest 1 (some f) [f] (by simp)
  have hres : extract_key_frames (f :: rest) thr target =
      extract_loop thr target interval (f :: rest) 0 none [] := by
    rw [extract_key_frames_eq, ← hintv, if_neg]
    intro hempty
    exact hloop (List.isEmpty_iff.mp hempty)
  refine ⟨by rw [hres]; exact hloop, ?_, ?_⟩
  · rw [hres]
    exact extract_loop_length_le thr interval target (max 2 target)
      (le_max_left _ _) (le_max_right _ _) _ _ _ _ (fun _ => rfl)
      (by simp only [List.length_nil]; omega)
  · intro h2
    rw [hres]
    exact extract_loop_length_le thr interval target target h2 le_rfl
      _ _ _ _ (fun _ => rfl) (by simp only [List.length_nil]; omega)

theorem claim_C4_witness :
    1 ≤ 8 ∧ ([flatFrame7] : List GrayFrame) ≠ [] ∧
      (extract_key_frames [flatFrame7] (9 / 10) 8 ≠ [] ∧
        (extract_key_frames [flatFrame7] (9 / 10) 8).length ≤ max 2 8 ∧
        (2 ≤ 8 → (extract_key_frames [flatFrame7] (9 / 10) 8).length ≤ 8)) :=
  ⟨by decide, by simp, claim_C4 [flatFrame7] (9 / 10) 8 (by decide) (by simp)⟩

/-! ### Concrete similarity value for the counterexamples -/

/-- A uniformly bright 7×7 frame. -/
def brightFrame7 : GrayFrame := { rows := 7, cols := 7, px := fun _ _ => 255 }

theorem winSum_fb1 : winSum (pxQ flatFrame7) 0 0 = 0 := by
  simp [winSum, pxQ, flatFrame7]

theorem winSum_fb2 : winSum (pxQ brightFrame7) 0 0 = 12495 := by
  simp [winSum, pxQ, brightFrame7, Finset.sum_const, Finset.card_range]
  norm_num

theorem winSum_fb3 : winSum (fun i j => pxQ flatFrame7 i j ^ 2) 0 0 = 0 := by
  simp [winSum, pxQ, flatFrame7]

theorem winSum_fb4 : winSum (fun i j => pxQ brightFrame7 i j ^ 2) 0 0 = 3186225 := by
  simp [winSum, pxQ, brightFrame7, Finset.sum_const, Finset.card_range]
  norm_num

theorem winSum_fb5 :
    winSum (fun i j => pxQ flatFrame7 i j * pxQ brightFrame7 i j) 0 0 = 0 := by
  simp [winSum, pxQ, flatFrame7, brightFrame7]

theorem ssimWin_fb : ssimWin flatFrame7 brightFrame7 0 0 = 1 / 10001 := by
  rw [ssimWin_eq, winSum_fb1, winSum_fb2, winSum_fb3, winSum_fb4, winSum_fb5]
  norm_num [ssimC1, ssimC2]

theorem ssim_fb : ssim flatFrame7 brightFrame7 = some (1 / 10001) := by
  unfold ssim
  rw [if_neg (by decide)]
  congr 1
  show (Finset.range (7 - 6)).sum
      (fun r => (Finset.range (7 - 6)).sum fun c =>
        ssimWin flatFrame7 brightFrame7 r c) / (((7 - 6) * (7 - 6) : ℕ) : ℚ) =
    1 / 10001
  norm_num [Finset.sum_range_one, ssimWin_fb]

/-- An all-black and an all-bright 7×7 frame score `1/10001`, far
below the default threshold `0.9`. -/
theorem calc_flat_bright :
    calculate_similarity flatFrame7 brightFrame7 = 1 / 10001 := by
  rw [calculate_similarity_eq,
    if_pos (show flatFrame7.rows = brightFrame7.rows ∧
      flatFrame7.cols = brightFrame7.cols from And.intro rfl rfl), ssim_fb]
  show max 0 (1 / 10001 : ℚ) = 1 / 10001
  rw [max_eq_right (by norm_num)]

/-- On a non-empty frame list the fallback never fires: the first
frame (index 0, always a sampling multiple) is selected, so
`extract_key_frames` is the raw loop result. -/
theorem extract_key_frames_cons_eq (f : GrayFrame) (rest : List GrayFrame)
    (thr : ℚ) (target : ℕ) :
    extract_key_frames (f :: rest) thr target =
      extract_loop thr target (sample_interval (f :: rest).length target)
        (f :: rest) 0 none [] := by
  set interval := sample_interval (f :: rest).length target with hintv
  have hloop : extract_loop thr target interval (f :: rest) 0 none [] ≠ [] := by
    rw [extract_loop_ref thr target interval f rest 0 [] (Nat.zero_mod interval)]
    exact extract_loop_ne_nil thr target interval rest 1 (some f) [f] (by simp)
  rw [extract_key_frames_eq, ← hintv, if_neg]
  intro hempty
  exact hloop (List.isEmpty_iff.mp hempty)

/-- The concrete run behind the `target_count = 1` counterexamples:
on the black/bright frame pair the code's loop selects both frames. -/
theorem extract_fb_eval :
    extract_key_frames [flatFrame7, brightFrame7] (9 / 10) 1 =
      [flatFrame7, brightFrame7] := by
  have hsim : calculate_similarity flatFrame7 brightFrame7 < 9 / 10 := by
    rw [calc_flat_bright]
    norm_num
  have hintv :
      sample_interval ([flatFrame7, brightFrame7] : List GrayFrame).length 1 = 1 := by
    decide
  rw [extract_key_frames_cons_eq, hintv]
  rw [extract_loop_ref (9 / 10) 1 1 flatFrame7 [brightFrame7] 0 [] (by decide)]
  show extract_loop (9 / 10) 1 1 [brightFrame7] 1 (some flatFrame7) [flatFrame7] =
    [flatFrame7, brightFrame7]
  rw [extract_loop_sel (9 / 10) 1 1 brightFrame7 flatFrame7 [] 1 [flatFrame7]
    (by decide) hsim]
  norm_num

/-- C4 (counterexample): with `target_count = 1` and two dissimilar
sampled frames, the first frame is selected as reference without any
length check, the second is then selected (score `1/10001 < 0.9`), and
only now does the break fire — the selector returns 2 keyframes,
exceeding `target_count = 1`. -/
theorem claim_C4_counterexample :
    (extract_key_frames [flatFrame7, brightFrame7] (9 / 10) 1).length = 2 ∧
      ¬ (extract_key_frames [flatFrame7, brightFrame7] (9 / 10) 1).length ≤ 1 := by
  rw [extract_fb_eval]
  constructor
  · rfl
  · decide

/-! ### C5: the selection process as claimed vs. the code's loop -/

theorem spec_loop_full (thr : ℚ) (target : ℕ) (l : List GrayFrame)
    (ref : Option GrayFrame) (acc : List GrayFrame) (h : target ≤ acc.length) :
    spec_loop thr target l ref acc = acc := by
  cases l with
  | nil => rfl
  | cons f rest => simp [spec_loop, h]

theorem spec_loop_ref (thr : ℚ) (target : ℕ) (f : GrayFrame)
    (rest : List GrayFrame) (acc : List GrayFrame) (h : ¬ target ≤ acc.length) :
    spec_loop thr target (f :: rest) none acc =
      spec_loop thr target rest (some f) (acc ++ [f]) := by
  simp [spec_loop, h]

theorem spec_loop_sel (thr : ℚ) (target : ℕ) (f r : GrayFrame)
    (rest : List GrayFrame) (acc : List GrayFrame) (h : ¬ target ≤ acc.length)
    (hs : calculate_similarity r f < thr) :
    spec_loop thr target (f :: rest) (some r) acc =
      spec_loop thr target rest (some f) (acc ++ [f]) := by
  simp [spec_loop, h, hs]

theorem spec_loop_nosel (thr : ℚ) (target : ℕ) (f r : GrayFrame)
    (rest : List GrayFrame) (acc : List GrayFrame) (h : ¬ target ≤ acc.length)
    (hs : ¬ calculate_similarity r f < thr) :
    spec_loop thr target (f :: rest) (some r) acc =
      spec_loop thr target rest (some r) acc := by
  simp [spec_loop, h, hs]

/-- The code's loop agrees with the claim's process as long as the
accumulator is strictly below `target` (which `2 ≤ target`
maintains): both consider exactly the sampled indices, select the
first, select later ones iff the score is below threshold against the
moving reference, and stop at `target`. -/
theorem extract_loop_eq_spec (thr : ℚ) (target interval : ℕ) (h2 : 2 ≤ target) :
    ∀ (fs : List GrayFrame) (idx : ℕ) (ref : Option GrayFrame)
      (acc : List GrayFrame),
      (ref = none → acc = []) → acc.length < target →
      extract_loop thr target interval fs idx ref acc =
        spec_loop thr target
          (((fs.enumFrom idx).filter fun p => p.1 % interval = 0).map Prod.snd)
          ref acc := by
  intro fs
  induction fs with
  | nil => intro idx ref acc _ _; rfl
  | cons f rest ih =>
    intro idx ref acc href hlen
    have henum : (f :: rest).enumFrom idx = (idx, f) :: rest.enumFrom (idx + 1) := rfl
    rw [henum]
    by_cases hi : idx % interval = 0
    · rw [List.filter_cons_of_pos (by simpa using hi), List.map_cons]
      rcases ref with _ | r
      · have hacc := href rfl
        subst hacc
        rw [extract_loop_ref thr target interval f rest idx [] hi,
            spec_loop_ref thr target f _ [] (by simp; omega)]
        exact ih _ _ _ (by simp) (by simp; omega)
      · by_cases hs : calculate_similarity r f < thr
        · rw [extract_loop_sel thr target interval f r rest idx acc hi hs,
              spec_loop_sel thr target f r _ acc (by omega) hs]
          by_cases ht : target ≤ (acc ++ [f]).length
          · rw [if_pos ht]
            exact (spec_loop_full thr target _ _ _ ht).symm
          · rw [if_neg ht]
            refine ih _ _ _ (by simp) ?_
            simp only [List.length_append, List.length_cons, List.length_nil] at ht ⊢
            omega
        · rw [extract_loop_nosel thr target interval f r rest idx acc hi hs,
              spec_loop_nosel thr target f r _ acc (by omega) hs]
          exact ih _ _ _ (fun h => absurd h (by simp)) hlen
    · rw [List.filter_cons_of_neg (by simpa using hi)]
      rw [extract_loop_skip thr target interval f rest idx ref acc hi]
      exact ih _ _ _ href hlen

/-- C5 (amended): for `target_count ≥ 2` the selector behaves exactly
as the claim describes — it considers only frames at multiples of
`sample_interval = max(1, total_frame_count // (target_count·3))`,
always selects the first sampled frame as reference, selects each
later sampled frame iff its score against the moving reference is
strictly below τ (the selected frame becoming the new reference), and
stops once `target_count` keyframes are collected or the input is
exhausted.  (For `target_count = 1` the code does *not* stop at one
keyframe: the length check runs only after a non-first selection —
see the counterexample.) -/
theorem claim_C5 (frames : List GrayFrame) (thr : ℚ) (target : ℕ)
    (h2 : 2 ≤ target) :
    extract_key_frames frames thr target = spec_select frames thr target := by
  rcases frames with _ | ⟨f, rest⟩
  · rfl
  · rw [extract_key_frames_cons_eq]
    unfold spec_select spec_sampled
    rw [extract_loop_eq_spec thr target (sample_interval (f :: rest).length target)
      h2 (f :: rest) 0 none [] (fun _ => rfl) (by simp; omega)]
    rfl

theorem claim_C5_witness :
    2 ≤ 8 ∧
      extract_key_frames [flatFrame7] (9 / 10) 8 =
        spec_select [flatFrame7] (9 / 10) 8 :=
  ⟨by decide, claim_C5 [flatFrame7] (9 / 10) 8 (by decide)⟩

/-- C5 (counterexample): with `target_count = 1` the claim's process
stops after selecting the first sampled frame (1 keyframe collected),
but the code's loop only checks the bound after a non-first selection
and returns 2 keyframes on the same input. -/
theorem claim_C5_counterexample :
    (extract_key_frames [flatFrame7, brightFrame7] (9 / 10) 1).length = 2 ∧
      (spec_select [flatFrame7, brightFrame7] (9 / 10) 1).length = 1 := by
  constructor
  · rw [extract_fb_eval]
    rfl
  · have hsampled : spec_sampled [flatFrame7, brightFrame7] 1 =
        [flatFrame7, brightFrame7] := rfl
    have hloop : spec_loop (9 / 10) 1 [flatFrame7, brightFrame7] none [] =
        [flatFrame7] := by
      rw [spec_loop_ref (9 / 10) 1 flatFrame7 [brightFrame7] [] (by decide)]
      show spec_loop (9 / 10) 1 [brightFrame7] (some flatFrame7) [flatFrame7] =
        [flatFrame7]
      exact spec_loop_full (9 / 10) 1 [brightFrame7] (some flatFrame7)
        [flatFrame7] (by decide)
    have hsel : spec_select [flatFrame7, brightFrame7] (9 / 10) 1 =
        [flatFrame7] := by
      show spec_loop (9 / 10) 1
        (spec_sampled [flatFrame7, brightFrame7]
          (sample_interval ([flatFrame7, brightFrame7] : List GrayFrame).length 1))
        none [] = [flatFrame7]
      rw [show sample_interval
          ([flatFrame7, brightFrame7] : List GrayFrame).length 1 = 1 from by decide]
      rw [hsampled]
      exact hloop
    rw [hsel]
    rfl

end TrainCoach
